import Mathlib

/-!
Verification of the AM1 virtual machine (src/AMN/am1.py and the shared
framework in src/AMN/__init__.py) against its natural-language
specification.  The Python code is shallowly embedded: machine state is a
record of unbounded integers and integer lists, Python list indexing
(including negative-index wrap-around and slice clamping) is modelled
explicitly, instruction execution returns either a successful new state with
an optional output or a fault paired with the state at the moment the
exception was raised (Python leaves partial in-place mutations visible to
the caller, so the fault carries the possibly mutated state).
-/

set_option maxHeartbeats 1000000

namespace AMN

/-- Execution-time faults.  They correspond to the Python exceptions raised
by Machine.execute_instruction: ValueError from resolve_address
(AddressFault), IndexError from list accesses (IndexFault),
ZeroDivisionError (ArithmeticFault), StopIteration from an exhausted input
iterator (InputExhaustedFault) and LookupError from RET without an active
frame (UnderflowFault). -/
inductive Fault where
  | addressFault
  | indexFault
  | arithmeticFault
  | inputExhaustedFault
  | underflowFault
deriving DecidableEq, Repr

/-- Exceptions that Instruction.parse can raise: KeyError (regex mismatch or
failed enum lookup) and ValueError (int() on a malformed payload). -/
inductive PErr where
  | keyErr
  | valueErr
deriving DecidableEq, Repr

/-- Parse-time faults produced by AbstractInstruction.parse_program, each
carrying the 1-based line number.  invalidInstructionAt is the
UnknownOpcodeFault wrapper for KeyError, invalidPayloadAt the
MalformedOperandFault wrapper for ValueError, missingSemicolonAt the
SyntaxFault for an unterminated non-blank line. -/
inductive PFault where
  | invalidInstructionAt (line : Nat)
  | invalidPayloadAt (line : Nat)
  | missingSemicolonAt (line : Nat)
deriving DecidableEq, Repr

/-- Context relative to which an index should be loaded (am1.MemoryContext).
The source spells the frame-relative member LOKAL. -/
inductive MemoryContext where
  | GLOBAL
  | LOKAL
deriving DecidableEq, Repr

/-- MemoryContext.resolve_address: LOKAL adds the reference pointer, then
any result below 1 raises ValueError (AddressFault).  No upper bound is
checked. -/
def MemoryContext.resolve_address (c : MemoryContext) (address : Int)
    (reference_pointer : Int) : Except Unit Int :=
  let a := match c with
    | .GLOBAL => address
    | .LOKAL => address + reference_pointer
  if a ≤ 0 then .error () else .ok a

/-- AM1 instruction opcodes (am1.Instruction). -/
inductive Instruction where
  | ADD | MUL | SUB | DIV | MOD
  | EQ | NE | LT | GT | LE | GE
  | LOAD | LOADA | LOADI | STORE | STOREI
  | LIT | JMP | JMC
  | WRITE | WRITEI | READ | READI
  | PUSH | CALL | INIT | RET
deriving DecidableEq, Repr

/-- The enum value of each opcode, as assigned in the source. -/
def Instruction.value : Instruction → Nat
  | .ADD => 1 | .MUL => 2 | .SUB => 3 | .DIV => 4 | .MOD => 5
  | .EQ => 6 | .NE => 7 | .LT => 8 | .GT => 9 | .LE => 10 | .GE => 11
  | .LOAD => 12 | .LOADA => 13 | .LOADI => 14 | .STORE => 15 | .STOREI => 16
  | .LIT => 17 | .JMP => 18 | .JMC => 19
  | .WRITE => 20 | .WRITEI => 21 | .READ => 22 | .READI => 23
  | .PUSH => 24 | .CALL => 25 | .INIT => 26 | .RET => 27

/-- Instruction.is_jump: membership of the enum value in {18, 19, 25, 27}. -/
def Instruction.is_jump (i : Instruction) : Bool :=
  i.value == 18 || i.value == 19 || i.value == 25 || i.value == 27

/-- The mnemonic of each opcode (the Python enum member name). -/
def Instruction.mnemonic : Instruction → List Char
  | .ADD => ['A', 'D', 'D']
  | .MUL => ['M', 'U', 'L']
  | .SUB => ['S', 'U', 'B']
  | .DIV => ['D', 'I', 'V']
  | .MOD => ['M', 'O', 'D']
  | .EQ => ['E', 'Q']
  | .NE => ['N', 'E']
  | .LT => ['L', 'T']
  | .GT => ['G', 'T']
  | .LE => ['L', 'E']
  | .GE => ['G', 'E']
  | .LOAD => ['L', 'O', 'A', 'D']
  | .LOADA => ['L', 'O', 'A', 'D', 'A']
  | .LOADI => ['L', 'O', 'A', 'D', 'I']
  | .STORE => ['S', 'T', 'O', 'R', 'E']
  | .STOREI => ['S', 'T', 'O', 'R', 'E', 'I']
  | .LIT => ['L', 'I', 'T']
  | .JMP => ['J', 'M', 'P']
  | .JMC => ['J', 'M', 'C']
  | .WRITE => ['W', 'R', 'I', 'T', 'E']
  | .WRITEI => ['W', 'R', 'I', 'T', 'E', 'I']
  | .READ => ['R', 'E', 'A', 'D']
  | .READI => ['R', 'E', 'A', 'D', 'I']
  | .PUSH => ['P', 'U', 'S', 'H']
  | .CALL => ['C', 'A', 'L', 'L']
  | .INIT => ['I', 'N', 'I', 'T']
  | .RET => ['R', 'E', 'T']

/-- All 27 opcodes, in enum order. -/
def Instruction.all : List Instruction :=
  [.ADD, .MUL, .SUB, .DIV, .MOD, .EQ, .NE, .LT, .GT, .LE, .GE,
   .LOAD, .LOADA, .LOADI, .STORE, .STOREI, .LIT, .JMP, .JMC,
   .WRITE, .WRITEI, .READ, .READI, .PUSH, .CALL, .INIT, .RET]

/-- Enum name lookup, Python cls[name]; none models the KeyError. -/
def Instruction.fromName (name : List Char) : Option Instruction :=
  Instruction.all.find? (fun i => i.mnemonic = name)

/-- Enum name lookup for MemoryContext[name]. -/
def ctxFromName (name : List Char) : Option MemoryContext :=
  if name = ['G', 'L', 'O', 'B', 'A', 'L'] then some .GLOBAL
  else if name = ['L', 'O', 'K', 'A', 'L'] then some .LOKAL
  else none

/-- A parsed AM1 instruction: opcode, memory context and integer payload. -/
abbrev SInstr := Instruction × MemoryContext × Int

/-- AM1 machine state (am1.Machine).  The lazily consumed input iterator is
modelled as the list of values it has yet to produce. -/
structure Machine where
  counter : Int
  stack : List Int
  runtime_stack : List Int
  reference_pointer : Int
  input : List Int
deriving DecidableEq, Repr

/-- Python list read l[i]: nonnegative indices from the front, negative
indices wrap from the back, out of range is an IndexError (none). -/
def pyGet (l : List Int) (i : Int) : Option Int :=
  if 0 ≤ i then l[i.toNat]?
  else if -i ≤ (l.length : Int) then l[l.length - (-i).toNat]?
  else none

/-- Python list write l[i] = v, with the same index normalisation. -/
def pySet (l : List Int) (i : Int) (v : Int) : Option (List Int) :=
  if 0 ≤ i then
    if i.toNat < l.length then some (l.set i.toNat v) else none
  else if -i ≤ (l.length : Int) then
    some (l.set (l.length - (-i).toNat) v)
  else none

/-- Python list.pop(): removes and returns the last element, IndexError on
an empty list. -/
def pyPop (l : List Int) : Option (Int × List Int) :=
  match l.getLast? with
  | none => none
  | some v => some (v, l.dropLast)

/-- Python slice index normalisation: negative indices are taken from the
back, then the result is clamped to [0, len]. -/
def sliceIdx (len : Nat) (i : Int) : Nat :=
  (if i < 0 then ((len : Int) + i).toNat else i.toNat).min len

/-- Python slice l[a:b]. -/
def pySlice (l : List Int) (a b : Int) : List Int :=
  (l.take (sliceIdx l.length b)).drop (sliceIdx l.length a)

/-- Shared shape of the binary arithmetic and comparison opcodes:
stack[-2] = f(stack[-2], stack[-1]) followed by stack.pop().  Reading
stack[-2] raises IndexError before anything is mutated. -/
def binOp (m : Machine) (f : Int → Int → Int) :
    Except (Fault × Machine) (Machine × Option Int) :=
  match pyGet m.stack (-2), pyGet m.stack (-1) with
  | some a, some b =>
      .ok ({ m with stack := (m.stack.set (m.stack.length - 2) (f a b)).dropLast }, none)
  | _, _ => .error (.indexFault, m)

/-- DIV and MOD: as binOp but a zero divisor raises ZeroDivisionError while
evaluating the right-hand side, before any mutation. -/
def divModOp (m : Machine) (f : Int → Int → Int) :
    Except (Fault × Machine) (Machine × Option Int) :=
  match pyGet m.stack (-2), pyGet m.stack (-1) with
  | some a, some b =>
      if b = 0 then .error (.arithmeticFault, m)
      else .ok ({ m with stack := (m.stack.set (m.stack.length - 2) (f a b)).dropLast }, none)
  | _, _ => .error (.indexFault, m)

/-- The body of Machine.execute_instruction before the final counter
increment: the big match statement.  Faults carry the machine state at the
moment the Python exception is raised, which for STORE, STOREI, READ, READI
and RET can differ from the entry state because Python evaluates the
right-hand side of a subscript assignment (including stack.pop() and
next(input)) before the target subscript. -/
def step (m : Machine) (inst : SInstr) :
    Except (Fault × Machine) (Machine × Option Int) :=
  match inst with
  | (.ADD, _, _) => binOp m (fun a b => a + b)
  | (.MUL, _, _) => binOp m (fun a b => a * b)
  | (.SUB, _, _) => binOp m (fun a b => a - b)
  | (.DIV, _, _) => divModOp m Int.fdiv
  | (.MOD, _, _) => divModOp m Int.fmod
  | (.EQ, _, _) => binOp m (fun a b => if a = b then 1 else 0)
  | (.NE, _, _) => binOp m (fun a b => if a ≠ b then 1 else 0)
  | (.LT, _, _) => binOp m (fun a b => if a < b then 1 else 0)
  | (.GT, _, _) => binOp m (fun a b => if b < a then 1 else 0)
  | (.LE, _, _) => binOp m (fun a b => if a ≤ b then 1 else 0)
  | (.GE, _, _) => binOp m (fun a b => if b ≤ a then 1 else 0)
  | (.LOAD, ctx, address) =>
    match ctx.resolve_address address m.reference_pointer with
    | .error _ => .error (.addressFault, m)
    | .ok idx =>
      match pyGet m.runtime_stack (idx - 1) with
      | none => .error (.indexFault, m)
      | some v => .ok ({ m with stack := m.stack ++ [v] }, none)
  | (.LOADA, ctx, address) =>
    match ctx.resolve_address address m.reference_pointer with
    | .error _ => .error (.addressFault, m)
    | .ok idx => .ok ({ m with stack := m.stack ++ [idx] }, none)
  | (.LOADI, _, address) =>
    match MemoryContext.LOKAL.resolve_address address m.reference_pointer with
    | .error _ => .error (.addressFault, m)
    | .ok idx =>
      match pyGet m.runtime_stack (idx - 1) with
      | none => .error (.indexFault, m)
      | some v1 =>
        match pyGet m.runtime_stack (v1 - 1) with
        | none => .error (.indexFault, m)
        | some v2 => .ok ({ m with stack := m.stack ++ [v2] }, none)
  | (.STORE, ctx, address) =>
    match pyPop m.stack with
    | none => .error (.indexFault, m)
    | some (v, s) =>
      match ctx.resolve_address address m.reference_pointer with
      | .error _ => .error (.addressFault, { m with stack := s })
      | .ok idx =>
        match pySet m.runtime_stack (idx - 1) v with
        | none => .error (.indexFault, { m with stack := s })
        | some rs => .ok ({ m with stack := s, runtime_stack := rs }, none)
  | (.STOREI, _, address) =>
    match MemoryContext.LOKAL.resolve_address address m.reference_pointer with
    | .error _ => .error (.addressFault, m)
    | .ok idx =>
      match pyPop m.stack with
      | none => .error (.indexFault, m)
      | some (v, s) =>
        match pyGet m.runtime_stack (idx - 1) with
        | none => .error (.indexFault, { m with stack := s })
        | some v1 =>
          match pySet m.runtime_stack (v1 - 1) v with
          | none => .error (.indexFault, { m with stack := s })
          | some rs => .ok ({ m with stack := s, runtime_stack := rs }, none)
  | (.LIT, _, literal) => .ok ({ m with stack := m.stack ++ [literal] }, none)
  | (.JMP, _, target) => .ok ({ m with counter := target - 1 }, none)
  | (.JMC, _, target) =>
    match pyPop m.stack with
    | none => .error (.indexFault, m)
    | some (v, s) =>
      .ok ({ m with stack := s, counter := if v = 0 then target - 1 else m.counter }, none)
  | (.WRITE, ctx, address) =>
    match ctx.resolve_address address m.reference_pointer with
    | .error _ => .error (.addressFault, m)
    | .ok idx =>
      match pyGet m.runtime_stack (idx - 1) with
      | none => .error (.indexFault, m)
      | some v => .ok (m, some v)
  | (.WRITEI, _, address) =>
    match MemoryContext.LOKAL.resolve_address address m.reference_pointer with
    | .error _ => .error (.addressFault, m)
    | .ok idx =>
      match pyGet m.runtime_stack (idx - 1) with
      | none => .error (.indexFault, m)
      | some v1 =>
        match pyGet m.runtime_stack (v1 - 1) with
        | none => .error (.indexFault, m)
        | some v2 => .ok (m, some v2)
  | (.READ, ctx, address) =>
    match ctx.resolve_address address m.reference_pointer with
    | .error _ => .error (.addressFault, m)
    | .ok idx =>
      match m.input with
      | [] => .error (.inputExhaustedFault, m)
      | v :: rest =>
        match pySet m.runtime_stack (idx - 1) v with
        | none => .error (.indexFault, { m with input := rest })
        | some rs => .ok ({ m with runtime_stack := rs, input := rest }, none)
  | (.READI, _, address) =>
    match MemoryContext.LOKAL.resolve_address address m.reference_pointer with
    | .error _ => .error (.addressFault, m)
    | .ok idx =>
      match m.input with
      | [] => .error (.inputExhaustedFault, m)
      | v :: rest =>
        match pyGet m.runtime_stack (idx - 1) with
        | none => .error (.indexFault, { m with input := rest })
        | some v1 =>
          match pySet m.runtime_stack (v1 - 1) v with
          | none => .error (.indexFault, { m with input := rest })
          | some rs => .ok ({ m with runtime_stack := rs, input := rest }, none)
  | (.PUSH, _, _) =>
    match pyPop m.stack with
    | none => .error (.indexFault, m)
    | some (v, s) =>
      .ok ({ m with stack := s, runtime_stack := m.runtime_stack ++ [v] }, none)
  | (.CALL, _, target) =>
    .ok ({ m with
           runtime_stack := m.runtime_stack ++ [m.counter + 1, m.reference_pointer],
           counter := target - 1,
           reference_pointer := (m.runtime_stack.length : Int) + 2 }, none)
  | (.INIT, _, vars) =>
    .ok ({ m with runtime_stack := m.runtime_stack ++ List.replicate vars.toNat 0 }, none)
  | (.RET, _, parameters) =>
    if 1 < m.reference_pointer then
      match pyGet m.runtime_stack (m.reference_pointer - 2) with
      | none => .error (.indexFault, m)
      | some ret =>
        match pyGet m.runtime_stack (m.reference_pointer - 1) with
        | none => .error (.indexFault, { m with counter := ret - 1 })
        | some fp =>
          .ok ({ m with
                 counter := ret - 1,
                 reference_pointer := fp,
                 runtime_stack := m.runtime_stack.take
                   (sliceIdx m.runtime_stack.length (m.reference_pointer - parameters - 2)) },
               none)
    else .error (.underflowFault, m)

/-- Machine.execute_instruction: the match statement followed by the final
self.counter += 1, executed on every non-faulting path. -/
def execute_instruction (m : Machine) (inst : SInstr) :
    Except (Fault × Machine) (Machine × Option Int) :=
  match step m inst with
  | .error e => .error e
  | .ok (m', out) => .ok ({ m' with counter := m'.counter + 1 }, out)

/-- How a run of the driver loop ends: the counter left [1, length]
(halted), an instruction faulted, or the modelling fuel ran out. -/
inductive RunEnd where
  | halted (m : Machine)
  | faulted (f : Fault) (m : Machine)
  | fuelOut (m : Machine)
deriving DecidableEq, Repr

/-- program[counter - 1]; the driver loop only evaluates it when the guard
0 < counter ≤ len(program) holds, so the default is never returned. -/
def fetch (prog : List SInstr) (c : Int) : SInstr :=
  prog.getD (c - 1).toNat (.ADD, .GLOBAL, 0)

/-- The while loop of AbstractMachine.execute_program: while
0 < counter ≤ len(program), execute program[counter - 1] and yield its
output.  Fuel bounds the modelled number of iterations. -/
def runFrom (prog : List SInstr) : Nat → Machine → List (Option Int) × RunEnd
  | 0, m => ([], .fuelOut m)
  | fuel + 1, m =>
    if 1 ≤ m.counter ∧ m.counter ≤ (prog.length : Int) then
      match execute_instruction m (fetch prog m.counter) with
      | .error (f, m') => ([], .faulted f m')
      | .ok (m', out) =>
        match runFrom prog fuel m' with
        | (outs, e) => (out :: outs, e)
    else ([], .halted m)

/-- AbstractMachine.execute_program: reset counter to 1, then run the
loop. -/
def execute_program (prog : List SInstr) (fuel : Nat) (m : Machine) :
    List (Option Int) × RunEnd :=
  runFrom prog fuel { m with counter := 1 }

/-- The sequence of successfully executed instructions paired with their
outputs, in execution order, for comparison with the driver's yields. -/
def execTrace (prog : List SInstr) : Nat → Machine → List (SInstr × Option Int)
  | 0, _ => []
  | fuel + 1, m =>
    if 1 ≤ m.counter ∧ m.counter ≤ (prog.length : Int) then
      match execute_instruction m (fetch prog m.counter) with
      | .error _ => []
      | .ok (m', out) => (fetch prog m.counter, out) :: execTrace prog fuel m'
    else []

/-- Result of forcing the Machine.frames generator: the full finite list of
yielded slices, an IndexError while following a link, or exhaustion of the
modelling fuel (the walk did not finish within the given number of
steps). -/
inductive FramesRes where
  | ok (frames : List (List Int))
  | idxErr
  | noFuel
deriving DecidableEq, Repr

/-- The loop of Machine.frames: while reference > 0, yield
runtime_stack[reference - 2 : previous_reference - 2] and follow the link
stored at runtime_stack[reference - 1]; afterwards, if the remaining prefix
is longer than 2, yield runtime_stack[: previous_reference - 2]. -/
def framesAux (rs : List Int) : Nat → Int → Int → FramesRes
  | 0, _, _ => .noFuel
  | fuel + 1, previous, reference =>
    if 0 < reference then
      match pyGet rs (reference - 1) with
      | none => .idxErr
      | some next =>
        match framesAux rs fuel reference next with
        | .ok l => .ok (pySlice rs (reference - 2) (previous - 2) :: l)
        | r => r
    else
      .ok (if 2 < previous then [pySlice rs 0 (previous - 2)] else [])

/-- Machine.frames, with previous_reference initialised to
len(runtime_stack) + 2. -/
def frames (m : Machine) (fuel : Nat) : FramesRes :=
  framesAux m.runtime_stack fuel ((m.runtime_stack.length : Int) + 2)
    m.reference_pointer

/-- Characters stripped by Python str.rstrip(). -/
def isSpaceCh (c : Char) : Bool :=
  c = ' ' || c = '\t' || c = '\n' || c = '\r' || c = '\x0b' || c = '\x0c'

/-- Python str.rstrip(): remove trailing whitespace. -/
def rstrip (l : List Char) : List Char :=
  (l.reverse.dropWhile isSpaceCh).reverse

/-- Uppercase ASCII letter, the character class of the mnemonic group in
INSTRUCTION_PATTERN. -/
def isUpperAZ (c : Char) : Bool :=
  'A' ≤ c && c ≤ 'Z'

/-- Python source.split(newline): "" yields [""], separators are not
kept. -/
def splitNl : List Char → List (List Char)
  | [] => [[]]
  | c :: rest =>
    if c = '\n' then [] :: splitNl rest
    else
      match splitNl rest with
      | [] => [[c]]
      | l :: ls => (c :: l) :: ls

/-- Python str.partition at the first comma: none when no comma occurs
(Python returns an empty separator in that case). -/
def partitionComma : List Char → Option (List Char × List Char)
  | [] => none
  | c :: rest =>
    if c = ',' then some ([], rest)
    else
      match partitionComma rest with
      | none => none
      | some (f, l) => some (c :: f, l)

/-- Value of a nonempty all-digit string. -/
def digitsVal : List Char → Option Nat
  | [] => none
  | l =>
    l.foldl
      (fun acc c =>
        match acc with
        | none => none
        | some n =>
          if '0' ≤ c ∧ c ≤ '9' then some (n * 10 + (c.toNat - '0'.toNat))
          else none)
      (some 0)

/-- Python int(str): surrounding whitespace is ignored, an optional sign is
followed by at least one digit; anything else is a ValueError (none). -/
def pyInt (s : List Char) : Option Int :=
  let t := rstrip (s.dropWhile isSpaceCh)
  match t with
  | '-' :: rest => (digitsVal rest).map (fun n => -(n : Int))
  | '+' :: rest => (digitsVal rest).map (fun n => (n : Int))
  | _ => (digitsVal t).map (fun n => (n : Int))

/-- Instruction.parse: match the line against
([A-Z]{2,6})(parenthesised args | space-prefixed arg)? and produce the
(opcode, context, payload) triple, defaulting the context to LOKAL and the
payload to 0.  The failure kind mirrors the Python exception: KeyError for
a regex mismatch or a failed enum lookup (opcode or context name),
ValueError for a malformed integer payload, raised in the evaluation order
of the Python tuple expressions. -/
def parseLine (line : List Char) : Except PErr SInstr :=
  let name := line.takeWhile isUpperAZ
  if name.length < 2 ∨ 6 < name.length then .error .keyErr
  else
    match line.drop name.length with
    | [] =>
      match Instruction.fromName name with
      | none => .error .keyErr
      | some i => .ok (i, .LOKAL, 0)
    | '(' :: inner =>
      if inner.getLast? = some ')' then
        match Instruction.fromName name with
        | none => .error .keyErr
        | some i =>
          match partitionComma inner.dropLast with
          | none =>
            match pyInt inner.dropLast with
            | none => .error .valueErr
            | some v => .ok (i, .LOKAL, v)
          | some (first, last) =>
            match ctxFromName (first.map Char.toUpper) with
            | none => .error .keyErr
            | some c =>
              match pyInt last with
              | none => .error .valueErr
              | some v => .ok (i, c, v)
      else .error .keyErr
    | ' ' :: rest =>
      match Instruction.fromName name with
      | none => .error .keyErr
      | some i =>
        match pyInt (' ' :: rest) with
        | none => .error .valueErr
        | some v => .ok (i, .LOKAL, v)
    | _ => .error .keyErr

/-- The loop of AbstractInstruction.parse_program over the already split
lines, with the 1-based number of the first line.  The generator yields the
instructions parsed before the first fault and then raises; the result
pairs those instructions with the fault, if any. -/
def parseLines : List (List Char) → Nat → List SInstr × Option PFault
  | [], _ => ([], none)
  | l :: rest, n =>
    let l' := rstrip l
    if l'.getLast? = some ';' then
      match parseLine l'.dropLast with
      | .error .keyErr => ([], some (.invalidInstructionAt n))
      | .error .valueErr => ([], some (.invalidPayloadAt n))
      | .ok i =>
        match parseLines rest (n + 1) with
        | (is, f) => (i :: is, f)
    else if l' ≠ [] then ([], some (.missingSemicolonAt n))
    else parseLines rest (n + 1)

/-- AbstractInstruction.parse_program: split the source at newlines and
process the lines starting at line number 1. -/
def parseProgram (src : List Char) : List SInstr × Option PFault :=
  parseLines (splitNl src) 1

/-- The instruction contributed by one line when no fault occurs: nothing
for a blank line, otherwise the parse of the line with its trailing
semicolon stripped. -/
def lineOut (l : List Char) : Option SInstr :=
  if rstrip l = [] then none
  else ((parseLine (rstrip l).dropLast).toOption)

/-- A line that does not stop parse_program: blank after rstrip, or
semicolon-terminated with a parseable body. -/
def OkOrBlank (l : List Char) : Prop :=
  rstrip l = [] ∨
    ((rstrip l).getLast? = some ';' ∧ ∃ i, parseLine (rstrip l).dropLast = .ok i)

theorem pyGet_pair_neg2 (rest : List Int) (a b : Int) :
    pyGet (rest ++ [a, b]) (-2) = some a := by
  have h1 : ¬ (0 ≤ (-2 : Int)) := by norm_num
  have hlen : (rest ++ [a, b]).length = rest.length + 2 := by simp
  rw [pyGet, if_neg h1, hlen]
  have h2 : -(-2 : Int) ≤ ((rest.length + 2 : Nat) : Int) := by push_cast; omega
  rw [if_pos h2]
  have h3 : rest.length + 2 - (-(-2 : Int)).toNat = rest.length := by omega
  rw [h3, List.getElem?_append_right (le_refl _)]
  simp

theorem pyGet_pair_neg1 (rest : List Int) (a b : Int) :
    pyGet (rest ++ [a, b]) (-1) = some b := by
  have h1 : ¬ (0 ≤ (-1 : Int)) := by norm_num
  have hlen : (rest ++ [a, b]).length = rest.length + 2 := by simp
  rw [pyGet, if_neg h1, hlen]
  have h2 : -(-1 : Int) ≤ ((rest.length + 2 : Nat) : Int) := by push_cast; omega
  rw [if_pos h2]
  have h3 : rest.length + 2 - (-(-1 : Int)).toNat = rest.length + 1 := by omega
  rw [h3, List.getElem?_append_right (by omega)]
  have : rest.length + 1 - rest.length = 1 := by omega
  simp [this]

theorem set_pair_dropLast (rest : List Int) (a b r : Int) :
    ((rest ++ [a, b]).set ((rest ++ [a, b]).length - 2) r).dropLast = rest ++ [r] := by
  have hlen : (rest ++ [a, b]).length = rest.length + 2 := by simp
  rw [hlen]
  have h : rest.length + 2 - 2 = rest.length := by omega
  rw [h, List.set_append_right _ _ (le_refl _)]
  have h2 : rest.length - rest.length = 0 := by omega
  rw [h2]
  have h3 : ([a, b].set 0 r) = [r, b] := rfl
  rw [h3, show rest ++ [r, b] = (rest ++ [r]) ++ [b] by simp, List.dropLast_concat]

theorem binOp_pair (m : Machine) (rest : List Int) (a b : Int) (f : Int → Int → Int)
    (h : m.stack = rest ++ [a, b]) :
    binOp m f = .ok ({ m with stack := rest ++ [f a b] }, none) := by
  rw [binOp, h, pyGet_pair_neg2, pyGet_pair_neg1]
  dsimp only
  rw [set_pair_dropLast]

theorem fdiv_neg_neg (a b : Int) : Int.fdiv (-a) (-b) = Int.fdiv a b := by
  cases a with
  | ofNat ma =>
    cases ma with
    | zero =>
      cases b with
      | ofNat nb => cases nb with
        | zero => simp [Int.fdiv_zero]
        | succ nb' => rfl
      | negSucc nb => rfl
    | succ ma' =>
      cases b with
      | ofNat nb => cases nb with
        | zero => simp [Int.fdiv_zero]
        | succ nb' => rfl
      | negSucc nb => rfl
  | negSucc ma =>
    cases b with
    | ofNat nb => cases nb with
      | zero => simp [Int.fdiv_zero]
      | succ nb' => rfl
    | negSucc nb => rfl

theorem fmod_neg_neg (a b : Int) : Int.fmod (-a) (-b) = -Int.fmod a b := by
  rw [Int.fmod_def, Int.fmod_def, fdiv_neg_neg]
  ring

theorem fmod_bounds_of_neg (a b : Int) (hb : b < 0) :
    b < Int.fmod a b ∧ Int.fmod a b ≤ 0 := by
  have h1 : 0 < -b := by omega
  have h2 : 0 ≤ Int.fmod (-a) (-b) := Int.fmod_nonneg' _ h1
  have h3 : Int.fmod (-a) (-b) < -b := Int.fmod_lt_of_pos _ h1
  rw [fmod_neg_neg] at h2 h3
  omega

/-- Claim C5: address resolution is the identity for GLOBAL and adds the
frame pointer for LOKAL; it faults (ValueError, the AddressFault) exactly
when the resolved index is at most 0, and succeeds for every larger index,
checking no upper bound. -/
theorem resolve_address_spec (a fp : Int) :
    (MemoryContext.GLOBAL.resolve_address a fp = .ok a ↔ 0 < a)
    ∧ (MemoryContext.GLOBAL.resolve_address a fp = .error () ↔ a ≤ 0)
    ∧ (MemoryContext.LOKAL.resolve_address a fp = .ok (a + fp) ↔ 0 < a + fp)
    ∧ (MemoryContext.LOKAL.resolve_address a fp = .error () ↔ a + fp ≤ 0) := by
  unfold MemoryContext.resolve_address
  refine ⟨?_, ?_, ?_, ?_⟩ <;> simp only [] <;> split <;> simp_all

/-- Claim C10: INIT(k) appends exactly max(k, 0) zero slots to the runtime
stack and always succeeds: a negative payload is not a fault and leaves the
runtime stack unchanged, while the counter still advances by 1 and every
other component is untouched. -/
theorem init_allocates_max_payload_zero (m : Machine) (c : MemoryContext) (k : Int) :
    execute_instruction m (.INIT, c, k) =
      .ok ({ m with runtime_stack := m.runtime_stack ++ List.replicate k.toNat 0, counter := m.counter + 1 }, none)
    ∧ ((k.toNat : Int) = max k 0)
    ∧ (k < 0 → m.runtime_stack ++ List.replicate k.toNat 0 = m.runtime_stack) := by
  refine ⟨rfl, by omega, fun hk => ?_⟩
  have h : k.toNat = 0 := by omega
  simp [h]

/-- Claim C8: with at least two stack entries, DIV pops two and pushes the
floor quotient and MOD the floor-division remainder (Python // and %,
embedded as Int.fdiv and Int.fmod); a zero divisor raises
ZeroDivisionError (the ArithmeticFault) for both.  The final conjuncts
characterise fdiv/fmod as floor division: the remainder completes the
product back to the dividend and lies strictly within the divisor on the
divisor's own sign side. -/
theorem div_mod_floor_semantics (m : Machine) (c : MemoryContext)
    (rest : List Int) (a b p : Int) (h : m.stack = rest ++ [a, b]) :
    (b = 0 →
      execute_instruction m (.DIV, c, p) = .error (.arithmeticFault, m)
      ∧ execute_instruction m (.MOD, c, p) = .error (.arithmeticFault, m))
    ∧ (b ≠ 0 →
      execute_instruction m (.DIV, c, p) =
        .ok ({ m with stack := rest ++ [Int.fdiv a b], counter := m.counter + 1 }, none)
      ∧ execute_instruction m (.MOD, c, p) =
        .ok ({ m with stack := rest ++ [Int.fmod a b], counter := m.counter + 1 }, none)
      ∧ a = b * Int.fdiv a b + Int.fmod a b
      ∧ (0 < b → 0 ≤ Int.fmod a b ∧ Int.fmod a b < b)
      ∧ (b < 0 → b < Int.fmod a b ∧ Int.fmod a b ≤ 0)) := by
  constructor
  · intro hb
    subst hb
    constructor <;>
      simp [execute_instruction, step, divModOp, h, pyGet_pair_neg2, pyGet_pair_neg1]
  · intro hb
    refine ⟨?_, ?_, ?_, ?_, ?_⟩
    · simp [execute_instruction, step, divModOp, h, pyGet_pair_neg2, pyGet_pair_neg1,
        if_neg hb, set_pair_dropLast]
    · simp [execute_instruction, step, divModOp, h, pyGet_pair_neg2, pyGet_pair_neg1,
        if_neg hb, set_pair_dropLast]
    · linarith [Int.fmod_add_fdiv a b]
    · exact fun hpos => ⟨Int.fmod_nonneg' _ hpos, Int.fmod_lt_of_pos _ hpos⟩
    · exact fun hneg => fmod_bounds_of_neg a b hneg

/-- Witness for div_mod_floor_semantics at stack [7, -2] (and [7, 0] for
the zero-divisor fault). -/
theorem div_mod_floor_semantics_witness :
    execute_instruction ⟨1, [7, -2], [], 0, []⟩ (.DIV, .LOKAL, 0) =
      .ok (⟨2, [-4], [], 0, []⟩, none)
    ∧ execute_instruction ⟨1, [7, -2], [], 0, []⟩ (.MOD, .LOKAL, 0) =
      .ok (⟨2, [-1], [], 0, []⟩, none)
    ∧ execute_instruction ⟨1, [7, 0], [], 0, []⟩ (.DIV, .LOKAL, 0) =
      .error (.arithmeticFault, ⟨1, [7, 0], [], 0, []⟩) := by
  have h1 := (div_mod_floor_semantics ⟨1, [7, -2], [], 0, []⟩ .LOKAL [] 7 (-2) 0 rfl).2
    (by decide)
  have h2 := (div_mod_floor_semantics ⟨1, [7, 0], [], 0, []⟩ .LOKAL [] 7 0 0 rfl).1 rfl
  refine ⟨?_, ?_, ?_⟩
  · rw [h1.1]; rfl
  · rw [h1.2.1]; rfl
  · exact h2.1

theorem pyGet_nonneg (l : List Int) (i : Int) (h : 0 ≤ i) : pyGet l i = l[i.toNat]? := by
  simp [pyGet, h]

theorem pyGet_some_lt (l : List Int) (i : Int) (v : Int) (h0 : 0 ≤ i)
    (h : pyGet l i = some v) : i.toNat < l.length := by
  rw [pyGet_nonneg l i h0] at h
  rcases List.getElem?_eq_some.mp h with ⟨h1, _⟩
  exact h1

/-- Claim C1 (amended): CALL n pushes the return address counter + 1 and
the saved frame pointer, jumps to n and points the frame pointer just past
the saved pair; a later RET p in the callee — provided the callee preserved
the frame pointer and the saved link pair, and p does not exceed the
pre-call runtime stack length — restores the counter to the instruction
after the CALL, restores the caller frame pointer and truncates the runtime
stack to its pre-call length minus p. -/
theorem call_ret_roundtrip (m m2 : Machine) (c c' : MemoryContext) (n p : Int)
    (hrp : m2.reference_pointer = (m.runtime_stack.length : Int) + 2)
    (hret : pyGet m2.runtime_stack (m.runtime_stack.length : Int) = some (m.counter + 1))
    (hfp : pyGet m2.runtime_stack ((m.runtime_stack.length : Int) + 1) =
      some m.reference_pointer)
    (hp0 : 0 ≤ p) (hpL : p ≤ (m.runtime_stack.length : Int)) :
    execute_instruction m (.CALL, c, n) =
      .ok ({ m with runtime_stack := m.runtime_stack ++ [m.counter + 1, m.reference_pointer], counter := n, reference_pointer := (m.runtime_stack.length : Int) + 2 }, none)
    ∧ ∃ m3, execute_instruction m2 (.RET, c', p) = .ok (m3, none)
        ∧ m3.counter = m.counter + 1
        ∧ (m3.runtime_stack.length : Int) = (m.runtime_stack.length : Int) - p
        ∧ m3.reference_pointer = m.reference_pointer
        ∧ m3.stack = m2.stack ∧ m3.input = m2.input := by
  have hairy : (m.runtime_stack.length : Int) + 1 ≥ 0 := by positivity
  have hlen2 : ((m.runtime_stack.length : Int) + 1).toNat < m2.runtime_stack.length :=
    pyGet_some_lt _ _ _ hairy hfp
  constructor
  · simp only [execute_instruction, step]
    have : n - 1 + 1 = n := by omega
    rw [this]
  · have e1 : m2.reference_pointer - 2 = (m.runtime_stack.length : Int) := by omega
    have e2 : m2.reference_pointer - 1 = (m.runtime_stack.length : Int) + 1 := by omega
    have e3 : m2.reference_pointer - p - 2 = (m.runtime_stack.length : Int) - p := by omega
    have hnneg : ¬ ((m.runtime_stack.length : Int) - p < 0) := by omega
    have hmin : (((m.runtime_stack.length : Int) - p).toNat).min m2.runtime_stack.length =
        ((m.runtime_stack.length : Int) - p).toNat := by
      apply Nat.min_eq_left
      omega
    refine ⟨{ m2 with counter := m.counter + 1 - 1 + 1, reference_pointer := m.reference_pointer, runtime_stack := m2.runtime_stack.take ((m.runtime_stack.length : Int) - p).toNat }, ?_, ?_, ?_, rfl, rfl, rfl⟩
    · simp only [execute_instruction, step, if_pos (show 1 < m2.reference_pointer by omega),
        e1, e2, e3, hret, hfp, sliceIdx, if_neg hnneg, hmin]
    · show m.counter + 1 - 1 + 1 = m.counter + 1
      omega
    · show ((m2.runtime_stack.take ((m.runtime_stack.length : Int) - p).toNat).length : Int) = _
      rw [List.length_take]
      omega

/-- Witness for call_ret_roundtrip: a CALL from runtime stack [7] followed
directly by RET 1. -/
theorem call_ret_roundtrip_witness :
    execute_instruction ⟨1, [], [7], 0, []⟩ (.CALL, .LOKAL, 5) =
      .ok ({ (⟨1, [], [7], 0, []⟩ : Machine) with runtime_stack := [7] ++ [1 + 1, 0], counter := 5, reference_pointer := (([7] : List Int).length : Int) + 2 }, none)
    ∧ ∃ m3, execute_instruction ⟨5, [], [7, 2, 0], 3, []⟩ (.RET, .LOKAL, 1) = .ok (m3, none)
        ∧ m3.counter = 1 + 1
        ∧ (m3.runtime_stack.length : Int) = (([7] : List Int).length : Int) - 1
        ∧ m3.reference_pointer = 0
        ∧ m3.stack = [] ∧ m3.input = [] :=
  call_ret_roundtrip ⟨1, [], [7], 0, []⟩ ⟨5, [], [7, 2, 0], 3, []⟩ .LOKAL .LOKAL 5 1
    (by decide) (by decide) (by decide) (by decide) (by decide)

/-- Claim C1 counterexample: for p = 1 with an empty pre-call runtime
stack, CALL 5 then RET 1 leaves the runtime stack with one element (the
Python deletion index wraps around), not the pre-call length minus p. -/
theorem call_ret_roundtrip_counterexample :
    execute_instruction ⟨1, [], [], 0, []⟩ (.CALL, .LOKAL, 5) =
      .ok (⟨5, [], [2, 0], 2, []⟩, none)
    ∧ execute_instruction ⟨5, [], [2, 0], 2, []⟩ (.RET, .LOKAL, 1) =
      .ok (⟨2, [], [2], 0, []⟩, none)
    ∧ ¬ (((⟨2, [], [2], 0, []⟩ : Machine).runtime_stack.length : Int) =
          ((⟨1, [], [], 0, []⟩ : Machine).runtime_stack.length : Int) - 1) :=
  ⟨rfl, rfl, by decide⟩

theorem execute_instruction_error (m : Machine) (i : SInstr) (e : Fault × Machine) :
    execute_instruction m i = .error e ↔ step m i = .error e := by
  rw [execute_instruction]
  cases hs : step m i with
  | error e' => simp
  | ok x =>
    cases x
    simp

/-- Claim C2 (amended): an execution-time fault leaves the machine state
exactly as it was before the faulting instruction, for every instruction
except STORE, STOREI, READ, READI and RET — for those five, Python's
evaluation order can pop the expression stack (STORE/STOREI), consume the
next input value (READ/READI) or update the counter (RET) before the
exception is raised, leaving that partial mutation behind. -/
theorem fault_leaves_state_unchanged (m : Machine) (i : Instruction)
    (c : MemoryContext) (p : Int) (f : Fault) (m' : Machine)
    (hi : i ≠ .STORE ∧ i ≠ .STOREI ∧ i ≠ .READ ∧ i ≠ .READI ∧ i ≠ .RET)
    (h : execute_instruction m (i, c, p) = .error (f, m')) : m' = m := by
  rw [execute_instruction_error] at h
  obtain ⟨h1, h2, h3, h4, h5⟩ := hi
  cases i <;>
    first
      | exact absurd rfl h1
      | exact absurd rfl h2
      | exact absurd rfl h3
      | exact absurd rfl h4
      | exact absurd rfl h5
      | (simp only [step, binOp, divModOp] at h
         repeat' split at h
         all_goals simp_all)

/-- Witness for fault_leaves_state_unchanged: ADD on a single-element
stack raises IndexError with the state untouched. -/
theorem fault_leaves_state_unchanged_witness :
    execute_instruction ⟨1, [5], [], 0, []⟩ (.ADD, .LOKAL, 0) =
      .error (.indexFault, ⟨1, [5], [], 0, []⟩)
    ∧ (⟨1, [5], [], 0, []⟩ : Machine) = ⟨1, [5], [], 0, []⟩ :=
  ⟨rfl, fault_leaves_state_unchanged ⟨1, [5], [], 0, []⟩ .ADD .LOKAL 0 .indexFault
    ⟨1, [5], [], 0, []⟩ (by decide) rfl⟩

/-- Claim C2 counterexample: STORE with an invalid address pops the
expression stack before the AddressFault is raised, so the post-fault state
differs from the pre-fault state. -/
theorem fault_atomicity_counterexample :
    execute_instruction ⟨1, [5], [], 0, []⟩ (.STORE, .GLOBAL, 0) =
      .error (.addressFault, ⟨1, [], [], 0, []⟩)
    ∧ (⟨1, [], [], 0, []⟩ : Machine) ≠ ⟨1, [5], [], 0, []⟩ :=
  ⟨rfl, by decide⟩

theorem step_ok_counter_of_not_jump (m : Machine) (i : Instruction) (c : MemoryContext)
    (p : Int) (m'' : Machine) (out : Option Int)
    (hj : i.is_jump = false) (h : step m (i, c, p) = .ok (m'', out)) :
    m''.counter = m.counter := by
  cases i <;>
    first
      | exact absurd hj (by decide)
      | (simp only [step, binOp, divModOp] at h
         repeat' split at h
         all_goals
           first
             | (injection h with h1
                injection h1 with h3 h4
                subst h3
                rfl)
             | injection h)

/-- Claim C9: is_jump is true exactly for JMP, JMC, CALL and RET; every
successful execution of any other opcode leaves the counter at its previous
value plus 1, while each of the four jump opcodes has a successful
execution that leaves the counter elsewhere. -/
theorem is_jump_agrees_with_semantics :
    (∀ (i : Instruction) (c : MemoryContext) (p : Int) (m m' : Machine) (out : Option Int),
      i.is_jump = false → execute_instruction m (i, c, p) = .ok (m', out) →
      m'.counter = m.counter + 1)
    ∧ (∀ i : Instruction, i.is_jump = true →
      ∃ (m : Machine) (c : MemoryContext) (p : Int) (m' : Machine) (out : Option Int),
        execute_instruction m (i, c, p) = .ok (m', out) ∧ m'.counter ≠ m.counter + 1) := by
  constructor
  · intro i c p m m' out hj hex
    rw [execute_instruction] at hex
    cases hs : step m (i, c, p) with
    | error e =>
      rw [hs] at hex
      exact absurd hex (by simp)
    | ok x =>
      cases x with
      | mk mm oo =>
        rw [hs] at hex
        have hc := step_ok_counter_of_not_jump m i c p mm oo hj hs
        simp only [Except.ok.injEq, Prod.mk.injEq] at hex
        rw [← hex.1]
        simp [hc]
  · intro i hj
    cases i <;> simp [Instruction.is_jump, Instruction.value] at hj
    case JMP =>
      exact ⟨⟨1, [], [], 0, []⟩, .LOKAL, 5, ⟨5, [], [], 0, []⟩, none, rfl, by decide⟩
    case JMC =>
      exact ⟨⟨1, [0], [], 0, []⟩, .LOKAL, 5, ⟨5, [], [], 0, []⟩, none, rfl, by decide⟩
    case CALL =>
      exact ⟨⟨1, [], [], 0, []⟩, .LOKAL, 5, ⟨5, [], [2, 0], 2, []⟩, none, rfl, by decide⟩
    case RET =>
      exact ⟨⟨1, [], [5, 0], 2, []⟩, .LOKAL, 0, ⟨5, [], [], 0, []⟩, none, rfl, by decide⟩

/-- Witness for is_jump_agrees_with_semantics: LIT is not a jump and a
concrete successful LIT execution advances the counter by exactly 1. -/
theorem is_jump_agrees_witness :
    (⟨2, [9], [], 0, []⟩ : Machine).counter = (⟨1, [], [], 0, []⟩ : Machine).counter + 1 :=
  is_jump_agrees_with_semantics.1 .LIT .LOKAL 9 ⟨1, [], [], 0, []⟩ ⟨2, [9], [], 0, []⟩
    none (by decide) rfl

/-- Claim C7: execute_program first resets the counter to 1; the loop stops
without a fault as soon as the (re-read, possibly jump-modified) counter
leaves [1, length(program)]; and the yielded sequence is exactly the
outputs of the successfully executed instructions in execution order. -/
theorem execute_program_driver_spec :
    (∀ (prog : List SInstr) (fuel : Nat) (m : Machine),
      execute_program prog fuel m = runFrom prog fuel { m with counter := 1 })
    ∧ (∀ (prog : List SInstr) (fuel : Nat) (m : Machine),
      ¬ (1 ≤ m.counter ∧ m.counter ≤ (prog.length : Int)) →
      runFrom prog (fuel + 1) m = ([], .halted m))
    ∧ (∀ (prog : List SInstr) (fuel : Nat) (m : Machine),
      (runFrom prog fuel m).1 = (execTrace prog fuel m).map Prod.snd) := by
  refine ⟨fun prog fuel m => rfl, fun prog fuel m h => ?_, fun prog fuel => ?_⟩
  · rw [runFrom, if_neg h]
  · induction fuel with
    | zero => intro m; rfl
    | succ k ih =>
      intro m
      rw [runFrom, execTrace]
      by_cases hc : 1 ≤ m.counter ∧ m.counter ≤ (prog.length : Int)
      · rw [if_pos hc, if_pos hc]
        cases hex : execute_instruction m (fetch prog m.counter) with
        | error e => cases e; simp
        | ok x =>
          cases x with
          | mk m' out =>
            rcases hrr : runFrom prog k m' with ⟨outs, e⟩
            have hmap := ih m'
            rw [hrr] at hmap
            simp [hex, hrr, hmap]
      · rw [if_neg hc, if_neg hc]
        rfl

/-- Witness for execute_program_driver_spec: the loop on an empty program
halts immediately without a fault. -/
theorem execute_program_driver_witness :
    runFrom [] (0 + 1) ⟨1, [], [], 0, []⟩ = ([], .halted ⟨1, [], [], 0, []⟩) :=
  execute_program_driver_spec.2.1 [] 0 ⟨1, [], [], 0, []⟩ (by decide)

theorem framesAux_terminates (rs : List Int)
    (hdec : ∀ (i : Nat) (hi : i < rs.length), rs.get ⟨i, hi⟩ < (i : Int) + 1) :
    ∀ (B : Nat) (ref : Int), ref.toNat ≤ B → ref ≤ (rs.length : Int) →
      ∀ prev, ∃ fuel l, framesAux rs fuel prev ref = .ok l := by
  intro B
  induction B with
  | zero =>
    intro ref h0 _ prev
    have hr : ¬ 0 < ref := by omega
    exact ⟨1, _, by rw [framesAux, if_neg hr]⟩
  | succ k ih =>
    intro ref hB hlen prev
    by_cases hr : 0 < ref
    · have hidx : (ref - 1).toNat < rs.length := by omega
      have hv : pyGet rs (ref - 1) = some (rs.get ⟨(ref - 1).toNat, hidx⟩) := by
        rw [pyGet_nonneg _ _ (by omega)]
        simp [List.getElem?_eq_getElem hidx]
      have hlt : rs.get ⟨(ref - 1).toNat, hidx⟩ < ref := by
        have hd := hdec ((ref - 1).toNat) hidx
        have hc : (((ref - 1).toNat : Nat) : Int) = ref - 1 := by omega
        omega
      obtain ⟨fuelv, lv, hfv⟩ :=
        ih (rs.get ⟨(ref - 1).toNat, hidx⟩) (by omega) (by omega) ref
      refine ⟨fuelv + 1, pySlice rs (ref - 2) (prev - 2) :: lv, ?_⟩
      rw [framesAux, if_pos hr]
      simp only [hv]
      rw [hfv]
    · exact ⟨1, _, by rw [framesAux, if_neg hr]⟩

/-- Claim C3 (amended): frames is read-only by construction in this pure
embedding, and it yields a finite sequence of runtime stack slices whenever
the frame links strictly decrease (every entry, read as a link from its
1-based position, points strictly below that position) and the frame
pointer lies within the runtime stack.  For arbitrary integer links the
walk need not terminate (see the cyclic-link counterexample). -/
theorem frames_terminates_of_decreasing_links (m : Machine)
    (hrp : m.reference_pointer ≤ (m.runtime_stack.length : Int))
    (hdec : ∀ (i : Nat) (hi : i < m.runtime_stack.length),
      m.runtime_stack.get ⟨i, hi⟩ < (i : Int) + 1) :
    ∃ (fuel : Nat) (l : List (List Int)), frames m fuel = .ok l := by
  obtain ⟨fuel, l, h⟩ := framesAux_terminates m.runtime_stack hdec
    m.reference_pointer.toNat m.reference_pointer (le_refl _) hrp
    ((m.runtime_stack.length : Int) + 2)
  exact ⟨fuel, l, h⟩

/-- Witness for frames_terminates_of_decreasing_links on runtime stack
[0, 1] with frame pointer 2. -/
theorem frames_terminates_witness :
    ∃ (fuel : Nat) (l : List (List Int)), frames ⟨1, [], [0, 1], 2, []⟩ fuel = .ok l :=
  frames_terminates_of_decreasing_links ⟨1, [], [0, 1], 2, []⟩ (by decide) (by decide)

theorem framesAux_cycle (fuel : Nat) : ∀ prev, framesAux [1] fuel prev 1 = .noFuel := by
  induction fuel with
  | zero => intro prev; rfl
  | succ k ih =>
    intro prev
    rw [framesAux, if_pos (by norm_num)]
    have h1 : pyGet [1] (1 - 1) = some 1 := rfl
    simp only [h1]
    rw [ih 1]

/-- Claim C3 counterexample: with runtime stack [1] and frame pointer 1 the
saved link points back at its own frame, so the frames walk cycles forever
and never yields a finite sequence, for any amount of fuel. -/
theorem frames_cycle_counterexample :
    ¬ ∃ (fuel : Nat) (l : List (List Int)), frames ⟨1, [], [1], 1, []⟩ fuel = .ok l := by
  rintro ⟨fuel, l, h⟩
  rw [frames] at h
  rw [framesAux_cycle fuel] at h
  exact FramesRes.noConfusion h

/-- Claim C6: parse_program splits the source at newlines; over lines that
are blank (after stripping trailing whitespace) or well formed, it yields
exactly the per-line parses of the semicolon-stripped bodies, skipping
blanks; and the first non-blank line whose stripped form does not end in a
semicolon stops parsing with the SyntaxFault naming that 1-based line
number, producing no instruction from that line on. -/
theorem parse_program_line_discipline :
    (∀ src, parseProgram src = parseLines (splitNl src) 1)
    ∧ (∀ (ls : List (List Char)) (n : Nat), (∀ x ∈ ls, OkOrBlank x) →
        parseLines ls n = (ls.filterMap lineOut, none))
    ∧ (∀ (ls₁ : List (List Char)) (l : List Char) (ls₂ : List (List Char)) (n : Nat),
        (∀ x ∈ ls₁, OkOrBlank x) → rstrip l ≠ [] → ¬ (rstrip l).getLast? = some ';' →
        parseLines (ls₁ ++ l :: ls₂) n =
          (ls₁.filterMap lineOut, some (.missingSemicolonAt (n + ls₁.length)))) := by
  have main : ∀ (ls : List (List Char)) (n : Nat), (∀ x ∈ ls, OkOrBlank x) →
      parseLines ls n = (ls.filterMap lineOut, none) := by
    intro ls
    induction ls with
    | nil => intro n _; rfl
    | cons x xs ih =>
      intro n h
      rcases h x (List.mem_cons_self x xs) with hb | ⟨hsemi, i, hok⟩
      · have hg : ¬ (rstrip x).getLast? = some ';' := by rw [hb]; simp
        rw [parseLines]
        simp only [if_neg hg]
        rw [if_neg (show ¬ rstrip x ≠ [] from fun hc => hc hb)]
        simp only [List.filterMap_cons, lineOut, if_pos hb]
        exact ih (n + 1) (fun y hy => h y (List.mem_cons_of_mem x hy))
      · rw [parseLines]
        simp only [if_pos hsemi, hok]
        rw [ih (n + 1) (fun y hy => h y (List.mem_cons_of_mem x hy))]
        have hblank : ¬ rstrip x = [] := by
          intro hc
          rw [hc] at hsemi
          exact Option.noConfusion hsemi
        simp [List.filterMap_cons, lineOut, if_neg hblank, hok, Except.toOption]
  refine ⟨fun src => rfl, main, ?_⟩
  intro ls₁
  induction ls₁ with
  | nil =>
    intro l ls₂ n _ hnb hns
    rw [List.nil_append, parseLines]
    simp only [if_neg hns]
    rw [if_pos hnb]
    rfl
  | cons x xs ih =>
    intro l ls₂ n h hnb hns
    have hx := h x (List.mem_cons_self x xs)
    have hrest : ∀ y ∈ xs, OkOrBlank y := fun y hy => h y (List.mem_cons_of_mem x hy)
    have harith : n + 1 + xs.length = n + (xs.length + 1) := by omega
    rcases hx with hb | ⟨hsemi, i, hok⟩
    · have hg : ¬ (rstrip x).getLast? = some ';' := by rw [hb]; simp
      rw [List.cons_append, parseLines]
      simp only [if_neg hg]
      rw [if_neg (show ¬ rstrip x ≠ [] from fun hc => hc hb)]
      rw [ih l ls₂ (n + 1) hrest hnb hns]
      simp [List.filterMap_cons, lineOut, if_pos hb, List.length_cons, harith]
    · rw [List.cons_append, parseLines]
      simp only [if_pos hsemi, hok]
      rw [ih l ls₂ (n + 1) hrest hnb hns]
      have hblank : ¬ rstrip x = [] := by
        intro hc
        rw [hc] at hsemi
        exact Option.noConfusion hsemi
      simp [List.filterMap_cons, lineOut, if_neg hblank, hok, Except.toOption,
        List.length_cons, harith]

/-- Witness for parse_program_line_discipline on the specification's
example source with the semicolon missing on line 2. -/
theorem parse_program_line_discipline_witness :
    parseProgram
        ['L', 'O', 'A', 'D', ' ', '1', ';', '\n', 'A', 'D', 'D', '\n',
         'J', 'M', 'P', ' ', '3', ';'] =
      ([(Instruction.LOAD, MemoryContext.LOKAL, 1)], some (.missingSemicolonAt 2)) := by
  have h := parse_program_line_discipline.2.2
    [['L', 'O', 'A', 'D', ' ', '1', ';']] ['A', 'D', 'D'] [['J', 'M', 'P', ' ', '3', ';']] 1
    (by
      intro x hx
      simp only [List.mem_singleton] at hx
      subst hx
      exact Or.inr ⟨by decide, ⟨(.LOAD, .LOKAL, 1), rfl⟩⟩)
    (by decide) (by decide)
  rw [parse_program_line_discipline.1]
  have hs : splitNl
      ['L', 'O', 'A', 'D', ' ', '1', ';', '\n', 'A', 'D', 'D', '\n',
       'J', 'M', 'P', ' ', '3', ';'] =
      [['L', 'O', 'A', 'D', ' ', '1', ';'], ['A', 'D', 'D'],
       ['J', 'M', 'P', ' ', '3', ';']] := by decide
  rw [hs]
  rw [show ([['L', 'O', 'A', 'D', ' ', '1', ';']] : List (List Char)) ++
      ['A', 'D', 'D'] :: [['J', 'M', 'P', ' ', '3', ';']] =
      [['L', 'O', 'A', 'D', ' ', '1', ';'], ['A', 'D', 'D'],
       ['J', 'M', 'P', ' ', '3', ';']] from rfl] at h
  rw [h]
  decide

/-- Witness for init_allocates_max_payload_zero at a negative payload. -/
theorem init_allocates_witness :
    execute_instruction ⟨1, [], [9], 0, []⟩ (.INIT, .LOKAL, -3) =
      .ok (⟨2, [], [9], 0, []⟩, none)
    ∧ ((-3 : Int) < 0 → [(9 : Int)] ++ List.replicate (-3 : Int).toNat 0 = [(9 : Int)]) := by
  have h := init_allocates_max_payload_zero ⟨1, [], [9], 0, []⟩ .LOKAL (-3)
  refine ⟨?_, h.2.2⟩
  rw [h.1]; rfl

theorem takeWhile_append_stop (xs : List Char) (y : Char) (ys : List Char)
    (hx : ∀ c ∈ xs, isUpperAZ c = true) (hy : isUpperAZ y = false) :
    (xs ++ y :: ys).takeWhile isUpperAZ = xs := by
  induction xs with
  | nil => simp [List.takeWhile_cons, hy]
  | cons c cs ih =>
    have hc := hx c (List.mem_cons_self c cs)
    simp [List.takeWhile_cons, hc, ih (fun d hd => hx d (List.mem_cons_of_mem c hd))]

theorem mnemonic_upper (i : Instruction) : ∀ c ∈ i.mnemonic, isUpperAZ c = true := by
  cases i <;> decide

theorem mnemonic_len (i : Instruction) : 2 ≤ i.mnemonic.length ∧ i.mnemonic.length ≤ 6 := by
  cases i <;> decide

theorem fromName_mnemonic (i : Instruction) : Instruction.fromName i.mnemonic = some i := by
  cases i <;> rfl

theorem partitionComma_split (ctx rst : List Char) (h : ',' ∉ ctx) :
    partitionComma (ctx ++ ',' :: rst) = some (ctx, rst) := by
  induction ctx with
  | nil => simp [partitionComma]
  | cons c cs ih =>
    have hc : ¬ c = ',' := fun hh => h (hh ▸ List.mem_cons_self c cs)
    rw [List.cons_append, partitionComma]
    simp [if_neg hc, ih (fun hm => h (List.mem_cons_of_mem c hm))]

theorem parseLine_bad_context (i : Instruction) (ctx rst : List Char)
    (hc1 : ',' ∉ ctx)
    (hctx : ctxFromName (ctx.map Char.toUpper) = none) :
    parseLine (i.mnemonic ++ '(' :: (ctx ++ ',' :: (rst ++ [')']))) = .error .keyErr := by
  have hup := mnemonic_upper i
  have hlen := mnemonic_len i
  have htw : (i.mnemonic ++ '(' :: (ctx ++ ',' :: (rst ++ [')']))).takeWhile isUpperAZ
      = i.mnemonic := takeWhile_append_stop _ _ _ hup (by decide)
  have hdrop : (i.mnemonic ++ '(' :: (ctx ++ ',' :: (rst ++ [')']))).drop i.mnemonic.length
      = '(' :: (ctx ++ ',' :: (rst ++ [')'])) := List.drop_left _ _
  rw [parseLine]
  simp only [htw, hdrop]
  rw [if_neg (by omega)]
  have hre : ctx ++ ',' :: (rst ++ [')']) = (ctx ++ ',' :: rst) ++ [')'] := by simp
  rw [hre]
  simp only [List.getLast?_concat]
  simp only [if_true]
  simp only [fromName_mnemonic, List.dropLast_concat, partitionComma_split ctx rst hc1, hctx]

theorem splitNl_no_newline (l : List Char) (h : '\n' ∉ l) : splitNl l = [l] := by
  induction l with
  | nil => rfl
  | cons c cs ih =>
    have hc : ¬ c = '\n' := fun hh => h (hh ▸ List.mem_cons_self c cs)
    rw [splitNl, if_neg hc, ih (fun hm => h (List.mem_cons_of_mem c hm))]

theorem splitNl_blanks (k : Nat) (l : List Char) (h : '\n' ∉ l) :
    splitNl (List.replicate k '\n' ++ l) = List.replicate k [] ++ [l] := by
  induction k with
  | zero => simpa using splitNl_no_newline l h
  | succ j ih =>
    rw [List.replicate_succ, List.cons_append, splitNl, if_pos rfl, ih]
    simp [List.replicate_succ]

theorem parseLines_blanks (k : Nat) (ls : List (List Char)) :
    ∀ n, parseLines (List.replicate k [] ++ ls) n = parseLines ls (n + k) := by
  induction k with
  | zero => intro n; simp
  | succ j ih =>
    intro n
    rw [List.replicate_succ, List.cons_append, parseLines]
    have h1 : ¬ (rstrip ([] : List Char)).getLast? = some ';' := by decide
    rw [if_neg h1, if_neg (by decide : ¬ (rstrip ([] : List Char) ≠ []))]
    rw [ih (n + 1)]
    have harith : n + 1 + j = n + (j + 1) := by omega
    rw [harith]

theorem rstrip_append_nonspace (l : List Char) (c : Char) (h : isSpaceCh c = false) :
    rstrip (l ++ [c]) = l ++ [c] := by
  rw [rstrip, List.reverse_append]
  simp [List.dropWhile_cons, h]

/-- Claim C4 (amended): a line of shape NAME(ctx,payload) whose mnemonic is
a known opcode but whose context name is not GLOBAL or LOKAL after
uppercasing fails enum lookup with KeyError, so parse_program reports the
"invalid instruction" fault (the UnknownOpcodeFault wrapper) carrying the
1-based line number — the very same fault kind raised for an unknown
mnemonic (second conjunct), not the MalformedOperandFault. -/
theorem bad_context_unknown_opcode_fault (k : Nat) (i : Instruction) (ctx rst : List Char)
    (hc1 : ',' ∉ ctx) (hc2 : '\n' ∉ ctx) (hc3 : '\n' ∉ rst)
    (hctx : ctxFromName (ctx.map Char.toUpper) = none) :
    parseProgram (List.replicate k '\n' ++
        ((i.mnemonic ++ '(' :: (ctx ++ ',' :: (rst ++ [')']))) ++ [';']))
      = ([], some (.invalidInstructionAt (k + 1)))
    ∧ parseProgram ['X', 'X', ';'] = ([], some (.invalidInstructionAt 1)) := by
  constructor
  · have hline : '\n' ∉ (i.mnemonic ++ '(' :: (ctx ++ ',' :: (rst ++ [')']))) ++ [';'] := by
      intro hm
      simp only [List.mem_append, List.mem_cons, List.mem_singleton] at hm
      rcases hm with (hm | hm | hm | hm | hm | hm) | hm
      · have := mnemonic_upper i '\n' hm
        exact absurd this (by decide)
      · exact absurd hm (by decide)
      · exact hc2 hm
      · exact absurd hm (by decide)
      · exact hc3 hm
      · exact absurd hm (by decide)
      · exact absurd hm (by decide)
    rw [parseProgram, splitNl_blanks k _ hline, parseLines_blanks k _ 1]
    rw [parseLines]
    have hr : rstrip ((i.mnemonic ++ '(' :: (ctx ++ ',' :: (rst ++ [')']))) ++ [';'])
        = (i.mnemonic ++ '(' :: (ctx ++ ',' :: (rst ++ [')']))) ++ [';'] :=
      rstrip_append_nonspace _ _ (by decide)
    simp only [hr, List.getLast?_concat, if_true, List.dropLast_concat,
      parseLine_bad_context i ctx rst hc1 hctx]
    rw [Nat.add_comm 1 k]
  · rfl


/-- Witness for bad_context_unknown_opcode_fault: LOAD(xxx,-3) preceded by
0 blank lines. -/
theorem bad_context_unknown_opcode_fault_witness :
    parseProgram (List.replicate 0 '\n' ++
        ((Instruction.LOAD.mnemonic ++ '(' ::
          (['x', 'x', 'x'] ++ ',' :: (['-', '3'] ++ [')']))) ++ [';']))
      = ([], some (.invalidInstructionAt (0 + 1)))
    ∧ parseProgram ['X', 'X', ';'] = ([], some (.invalidInstructionAt 1)) :=
  bad_context_unknown_opcode_fault 0 .LOAD ['x', 'x', 'x'] ['-', '3']
    (by decide) (by decide) (by decide) (by decide)

/-- Claim C4 counterexample: parsing "LOAD(foo,1);" — known opcode, bad
context name — produces the "invalid instruction" fault (the
UnknownOpcodeFault wrapper for KeyError), which is a different fault from
the "invalid payload" MalformedOperandFault the claim promises. -/
theorem bad_context_fault_kind_counterexample :
    parseProgram ['L', 'O', 'A', 'D', '(', 'f', 'o', 'o', ',', '1', ')', ';'] =
      ([], some (.invalidInstructionAt 1))
    ∧ PFault.invalidInstructionAt 1 ≠ PFault.invalidPayloadAt 1 :=
  ⟨rfl, by decide⟩

end AMN
